import Mathlib

/-!
Shallow embedding of the Game Center performance-monitoring module
(Rust source: the performance metrics / tracker file of this repository).

Modelling conventions:
* Rust f64 values are modelled as exact rationals.
* Rust Instant / Duration values are modelled as rational millisecond
  timestamps supplied explicitly to the operations that read the clock.
* Rust u8 casts from f64 use saturating semantics (NaN excluded by the
  rational model, negative saturates to 0, above 255 saturates to 255,
  otherwise truncation toward zero, which is floor for non-negative input).
* u8 arithmetic that can underflow is modelled with explicit mod 256
  (release-profile wrapping semantics).
* The CPU / memory probes and the wall clock are modelled as explicit
  parameters of the sampling operation.
-/

namespace GameCenter

/-- Rust `expr as u8` for a float expression: saturating cast,
truncation toward zero for in-range values. -/
def toU8 (x : ℚ) : ℕ :=
  if x < 0 then 0 else min 255 (Int.floor x).toNat

/-- The buffer push used throughout the source:
push the element, then if the length exceeds the capacity remove the
oldest element (Rust: push then remove(0)). -/
def pushBounded {α : Type} (cap : ℕ) (buf : List α) (x : α) : List α :=
  let b := buf ++ [x]
  if cap < b.length then b.tail else b

/-- The last cap elements of a list, in order. -/
def lastN {α : Type} (cap : ℕ) (l : List α) : List α :=
  l.drop (l.length - cap)

/-- Rust f64 round-half-away-from-zero followed by an `as usize`
saturating cast (negative rounds saturate to 0). -/
def roundIdx (x : ℚ) : ℕ :=
  if x < 0 then 0 else (Int.floor (x + 1/2)).toNat

/-- Nearest-rank percentile as implemented identically by
FrameTimeTracker::percentile_frame_time and
LatencyTracker::percentile_latency: sort a copy ascending, take the
element at index round(p/100 * (len-1)); 0 when the buffer is empty. -/
def percentileOf (buf : List ℚ) (p : ℚ) : ℚ :=
  if buf = [] then 0
  else
    let sorted := List.insertionSort (fun a b => a ≤ b) buf
    sorted.getD (roundIdx (p / 100 * ((buf.length : ℚ) - 1))) 0

/-- Sample variance helper (denominator n-1), as in
PerformanceMonitor::variance. -/
def varianceOf (values : List ℚ) : ℚ :=
  if values.length < 2 then 0
  else
    let mean := values.sum / (values.length : ℚ)
    (values.map (fun v => (v - mean) ^ 2)).sum / ((values.length : ℚ) - 1)

/-- Rust f64::MAX as an exact rational: (2^53 - 1) * 2^971. -/
def FMAX : ℚ := 2 ^ 1024 - 2 ^ 971

/-- Rust f64::MIN as an exact rational. -/
def FMIN : ℚ := -(2 ^ 1024 - 2 ^ 971)

/- ===================== FrameTimeTracker ===================== -/

structure FrameTimeTracker where
  frame_times : List ℚ
  max_samples : ℕ
  last_frame_time : ℚ
  frame_count : ℕ
  fps_update_interval : ℚ
  last_fps_update : ℚ
  current_fps : ℚ
  deriving Repr, DecidableEq

def FrameTimeTracker.new (max_samples : ℕ) (now : ℚ) : FrameTimeTracker :=
  { frame_times := []
    max_samples := max_samples
    last_frame_time := now
    frame_count := 0
    fps_update_interval := 500
    last_fps_update := now
    current_fps := 0 }

/-- FrameTimeTracker::record_frame, with the clock reading passed in as
a millisecond timestamp. Returns the recorded frame time and the new
tracker state. -/
def FrameTimeTracker.record_frame (t : FrameTimeTracker) (now : ℚ) :
    ℚ × FrameTimeTracker :=
  let frame_time_ms := now - t.last_frame_time
  let frame_times := pushBounded t.max_samples t.frame_times frame_time_ms
  let frame_count := t.frame_count + 1
  if t.fps_update_interval ≤ now - t.last_fps_update then
    (frame_time_ms,
      { t with
          frame_times := frame_times
          last_frame_time := now
          frame_count := 0
          current_fps := (frame_count : ℚ) / ((now - t.last_fps_update) / 1000)
          last_fps_update := now })
  else
    (frame_time_ms,
      { t with
          frame_times := frame_times
          last_frame_time := now
          frame_count := frame_count })

def FrameTimeTracker.record_frames (t : FrameTimeTracker) (nows : List ℚ) :
    FrameTimeTracker :=
  nows.foldl (fun s now => (s.record_frame now).2) t

def FrameTimeTracker.average_frame_time (t : FrameTimeTracker) : ℚ :=
  if t.frame_times = [] then 0
  else t.frame_times.sum / (t.frame_times.length : ℚ)

def FrameTimeTracker.percentile_frame_time (t : FrameTimeTracker) (p : ℚ) : ℚ :=
  percentileOf t.frame_times p

/-- FrameTimeTracker::detect_frame_drops: indices of buffered samples
strictly exceeding the threshold. -/
def FrameTimeTracker.detect_frame_drops (t : FrameTimeTracker)
    (threshold_ms : ℚ) : List ℕ :=
  (t.frame_times.enum.filter (fun p => decide (threshold_ms < p.2))).map
    (fun p => p.1)

/-- The frame times produced by a sequence of record_frame calls at the
given timestamps: successive differences from the previous timestamp. -/
def frameTimesOf (last : ℚ) : List ℚ → List ℚ
  | [] => []
  | n :: rest => (n - last) :: frameTimesOf n rest

/-- The jitter values inserted by a sequence of record_ping calls (for a
capacity of at least 2): the absolute differences of successive latency
samples. -/
def absDiffsOf : List ℚ → List ℚ
  | [] => []
  | [_] => []
  | a :: b :: rest => |b - a| :: absDiffsOf (b :: rest)

/- ===================== PerformanceMonitor ===================== -/

structure PerformanceMetrics where
  timestamp : ℕ
  cpu_usage : ℚ
  memory_usage : ℚ
  gpu_usage : ℚ
  frame_rate : ℚ
  frame_time_ms : ℚ
  render_time_ms : ℚ
  update_time_ms : ℚ
  input_latency_ms : ℚ
  network_latency_ms : ℚ
  deriving Repr, DecidableEq

def PerformanceMetrics.default : PerformanceMetrics :=
  { timestamp := 0
    cpu_usage := 0
    memory_usage := 0
    gpu_usage := 0
    frame_rate := 0
    frame_time_ms := 0
    render_time_ms := 0
    update_time_ms := 0
    input_latency_ms := 0
    network_latency_ms := 0 }

structure GamePerformanceProfile where
  game_id : String
  average_fps : ℚ
  fps_variance : ℚ
  min_frame_time : ℚ
  max_frame_time : ℚ
  percentile_95_frame_time : ℚ
  total_playtime_ms : ℕ
  frame_drops : ℕ
  performance_score : ℕ
  deriving Repr, DecidableEq

structure PerformanceMonitor where
  metrics : PerformanceMetrics
  frame_tracker : FrameTimeTracker
  sampling_rate : ℚ
  last_sample : ℚ
  history : List PerformanceMetrics
  max_history : ℕ
  deriving Repr, DecidableEq

def PerformanceMonitor.new (sampling_rate_ms : ℕ) (max_history_samples : ℕ)
    (now : ℚ) : PerformanceMonitor :=
  { metrics := PerformanceMetrics.default
    frame_tracker := FrameTimeTracker.new 300 now
    sampling_rate := (sampling_rate_ms : ℚ)
    last_sample := now
    history := []
    max_history := max_history_samples }

/-- The PerformanceMetrics value written and cloned inside
PerformanceMonitor::sample once the rate gate has passed: timestamp,
frame_rate and frame_time_ms are refreshed, and cpu_usage / memory_usage
are overwritten only when the corresponding probe returns a value
(Rust: if let Some(..) = sample_cpu_usage() / sample_memory_usage()). -/
def PerformanceMonitor.snapshot (m : PerformanceMonitor) (wall : ℕ)
    (cpu mem : Option ℚ) : PerformanceMetrics :=
  let m0 := { m.metrics with
    timestamp := wall
    frame_rate := m.frame_tracker.current_fps
    frame_time_ms := m.frame_tracker.average_frame_time }
  let m1 := match cpu with
    | some c => { m0 with cpu_usage := c }
    | none => m0
  match mem with
  | some v => { m1 with memory_usage := v }
  | none => m1

/-- PerformanceMonitor::sample with the clock reading (now, in the same
millisecond timeline as last_sample), the wall-clock timestamp and the
two probe results passed in explicitly. -/
def PerformanceMonitor.sample (m : PerformanceMonitor) (now : ℚ) (wall : ℕ)
    (cpu mem : Option ℚ) : Option PerformanceMetrics × PerformanceMonitor :=
  if now - m.last_sample < m.sampling_rate then (none, m)
  else
    let snap := m.snapshot wall cpu mem
    (some snap,
      { m with
          metrics := snap
          history := pushBounded m.max_history m.history snap
          last_sample := now })

structure SampleInput where
  now : ℚ
  wall : ℕ
  cpu : Option ℚ
  mem : Option ℚ

def PerformanceMonitor.run_samples (m : PerformanceMonitor)
    (inputs : List SampleInput) : PerformanceMonitor :=
  inputs.foldl (fun s i => (s.sample i.now i.wall i.cpu i.mem).2) m

/- ===================== scoring ===================== -/

/-- The fps sub-score of PerformanceMonitor::calculate_score as a
function of current_fps. -/
def fpsScoreOf (fps : ℚ) : ℕ :=
  if 60 ≤ fps then 40
  else if 30 ≤ fps then 30 + toU8 ((fps - 30) / 30 * 10)
  else toU8 (fps / 30 * 30)

/-- The stability sub-score of PerformanceMonitor::calculate_score as a
function of average_frame_time. -/
def stabilityScoreOf (avg : ℚ) : ℕ :=
  if avg < 16.67 then 30
  else if avg < 33.33 then 20 + toU8 ((33.33 - avg) / 16.66 * 10)
  else toU8 (33.33 / avg * 20)

/-- PerformanceMonitor::calculate_score. The subtraction
fps_score + stability_score - drop_penalty is u8 arithmetic in the
source; the sums stay below 256, and the subtraction is modelled with
release-profile wrapping semantics (explicit mod 256). `.clamp(0, 100)`
on a u8 value is `min _ 100`. -/
def PerformanceMonitor.calculate_score (m : PerformanceMonitor) : ℕ :=
  let fps_score := fpsScoreOf m.frame_tracker.current_fps
  let stability_score := stabilityScoreOf m.frame_tracker.average_frame_time
  let frame_drops := (m.frame_tracker.detect_frame_drops 33.33).length
  let drop_penalty := min frame_drops 10 * 3
  min ((fps_score + stability_score + 256 - drop_penalty) % 256) 100

/-- The local frame_times of PerformanceMonitor::calculate_profile:
history frame times filtered to strictly positive values. -/
def positiveFrameTimes (m : PerformanceMonitor) : List ℚ :=
  (m.history.map (fun x => x.frame_time_ms)).filter (fun t => decide (0 < t))

/-- The local fps_values of PerformanceMonitor::calculate_profile:
history frame rates filtered to strictly positive values. -/
def positiveFpsValues (m : PerformanceMonitor) : List ℚ :=
  (m.history.map (fun x => x.frame_rate)).filter (fun f => decide (0 < f))

/-- PerformanceMonitor::calculate_profile. -/
def PerformanceMonitor.calculate_profile (m : PerformanceMonitor)
    (game_id : String) : GamePerformanceProfile :=
  let frame_times := positiveFrameTimes m
  let fps_values := positiveFpsValues m
  { game_id := game_id
    average_fps :=
      if fps_values ≠ [] then fps_values.sum / (fps_values.length : ℚ) else 0
    fps_variance := varianceOf fps_values
    min_frame_time :=
      if frame_times ≠ [] then frame_times.foldl min FMAX else 0
    max_frame_time :=
      if frame_times ≠ [] then frame_times.foldl max FMIN else 0
    percentile_95_frame_time := m.frame_tracker.percentile_frame_time 95
    total_playtime_ms := m.history.length * (Int.floor m.sampling_rate).toNat
    frame_drops := (m.frame_tracker.detect_frame_drops 33.33).length
    performance_score := m.calculate_score }

/- ===================== LatencyTracker ===================== -/

structure LatencyTracker where
  ping_history : List ℚ
  jitter_history : List ℚ
  packet_loss : ℕ
  packets_sent : ℕ
  packets_received : ℕ
  max_history : ℕ
  deriving Repr, DecidableEq

def LatencyTracker.new (max_history : ℕ) : LatencyTracker :=
  { ping_history := []
    jitter_history := []
    packet_loss := 0
    packets_sent := 0
    packets_received := 0
    max_history := max_history }

/-- LatencyTracker::record_ping: bounded push of the latency sample,
then, if the (post-eviction) ping history holds at least two samples,
bounded push of the absolute difference of the last two samples onto the
jitter history; packets_received is incremented. -/
def LatencyTracker.record_ping (lt : LatencyTracker) (latency_ms : ℚ) :
    LatencyTracker :=
  let ping := pushBounded lt.max_history lt.ping_history latency_ms
  if 2 ≤ ping.length then
    let jitter := |ping.getD (ping.length - 1) 0 - ping.getD (ping.length - 2) 0|
    { lt with
        packets_received := lt.packets_received + 1
        ping_history := ping
        jitter_history := pushBounded lt.max_history lt.jitter_history jitter }
  else
    { lt with
        packets_received := lt.packets_received + 1
        ping_history := ping }

def LatencyTracker.record_pings (lt : LatencyTracker) (ps : List ℚ) :
    LatencyTracker :=
  ps.foldl (fun s p => s.record_ping p) lt

def LatencyTracker.record_packet_loss (lt : LatencyTracker) : LatencyTracker :=
  { lt with packet_loss := lt.packet_loss + 1 }

def LatencyTracker.increment_sent (lt : LatencyTracker) : LatencyTracker :=
  { lt with packets_sent := lt.packets_sent + 1 }

def LatencyTracker.average_latency (lt : LatencyTracker) : ℚ :=
  if lt.ping_history = [] then 0
  else lt.ping_history.sum / (lt.ping_history.length : ℚ)

def LatencyTracker.average_jitter (lt : LatencyTracker) : ℚ :=
  if lt.jitter_history = [] then 0
  else lt.jitter_history.sum / (lt.jitter_history.length : ℚ)

def LatencyTracker.packet_loss_rate (lt : LatencyTracker) : ℚ :=
  if lt.packets_sent = 0 then 0
  else (lt.packet_loss : ℚ) / (lt.packets_sent : ℚ) * 100

def LatencyTracker.percentile_latency (lt : LatencyTracker) (p : ℚ) : ℚ :=
  percentileOf lt.ping_history p

/-- The latency sub-score of LatencyTracker::quality_score as a function
of average_latency. The last branch of the source is
((200 - avg) / 150.0 * 30.0) as u8. -/
def latencyScoreOf (l : ℚ) : ℕ :=
  if l < 50 then 40
  else if l < 100 then 30 + toU8 ((100 - l) / 50 * 10)
  else toU8 ((200 - l) / 150 * 30)

/-- The jitter sub-score of LatencyTracker::quality_score as a function
of average_jitter. -/
def jitterScoreOf (j : ℚ) : ℕ :=
  if j < 10 then 30
  else if j < 30 then 20 + toU8 ((30 - j) / 20 * 10)
  else toU8 (30 / j * 20)

/-- The packet-loss sub-score of LatencyTracker::quality_score as a
function of packet_loss_rate. -/
def lossScoreOf (r : ℚ) : ℕ :=
  if r < 1 then 30
  else if r < 5 then 20 + toU8 ((5 - r) / 4 * 10)
  else toU8 (5 / r * 20)

/-- LatencyTracker::quality_score: sum of the three sub-scores, then
`.clamp(0, 100)` (the lower clamp is vacuous on unsigned values). -/
def LatencyTracker.quality_score (lt : LatencyTracker) : ℕ :=
  min (latencyScoreOf lt.average_latency + jitterScoreOf lt.average_jitter
        + lossScoreOf lt.packet_loss_rate) 100

/- The exact branch expressions of the quality sub-scores, before the
integer casts: these rational-valued formulas carry the continuity
content of the piecewise definitions at their breakpoints. -/

def latencyScoreMidFormula (l : ℚ) : ℚ := 30 + (100 - l) / 50 * 10

def latencyScoreHighFormula (l : ℚ) : ℚ := (200 - l) / 150 * 30

def jitterScoreMidFormula (j : ℚ) : ℚ := 20 + (30 - j) / 20 * 10

def jitterScoreHighFormula (j : ℚ) : ℚ := 30 / j * 20

def lossScoreMidFormula (r : ℚ) : ℚ := 20 + (5 - r) / 4 * 10

def lossScoreHighFormula (r : ℚ) : ℚ := 5 / r * 20

/-- Modelled from the spec (section 4.5): the documented integer clamp
max(0, min(100, fps_sub + stability_sub - drop_penalty)), used to compare
the documented scoring contract with the source implementation. -/
def specPerformanceScore (m : PerformanceMonitor) : ℤ :=
  max 0 (min 100
    ((fpsScoreOf m.frame_tracker.current_fps : ℤ)
      + (stabilityScoreOf m.frame_tracker.average_frame_time : ℤ)
      - (min (m.frame_tracker.detect_frame_drops 33.33).length 10 * 3 : ℕ)))

/- ===================== helper lemmas ===================== -/

lemma toU8_mono {x y : ℚ} (h : x ≤ y) : toU8 x ≤ toU8 y := by
  unfold toU8
  by_cases hx : x < 0
  · simp [hx]
  · have hy : ¬ y < 0 := by push_neg at hx ⊢; exact hx.trans h
    simp only [hx, hy, if_false]
    exact min_le_min le_rfl (Int.toNat_le_toNat (Int.floor_le_floor h))

lemma toU8_le_of_le {x : ℚ} {n : ℕ} (h : x ≤ (n : ℚ)) : toU8 x ≤ n := by
  unfold toU8
  by_cases hx : x < 0
  · simp [hx]
  · simp only [hx, if_false]
    refine le_trans (min_le_right _ _) ?_
    have h1 : Int.floor x ≤ (n : ℤ) := by
      have h2 := Int.floor_le_floor h
      rwa [Int.floor_natCast] at h2
    omega

lemma latencyScoreOf_le (l : ℚ) : latencyScoreOf l ≤ 40 := by
  unfold latencyScoreOf
  split
  · exact le_rfl
  · split
    · rename_i h1 h2
      push_neg at h1
      have : (100 - l) / 50 * 10 ≤ (10 : ℚ) := by linarith
      have := toU8_le_of_le (n := 10) (by exact_mod_cast this)
      omega
    · rename_i h1 h2
      push_neg at h1 h2
      have : (200 - l) / 150 * 30 ≤ (20 : ℚ) := by linarith
      have := toU8_le_of_le (n := 20) (by exact_mod_cast this)
      omega

lemma latencyScoreOf_ge (l : ℚ) (h : l < 100) : 30 ≤ latencyScoreOf l := by
  unfold latencyScoreOf
  split
  · omega
  · omega

lemma latencyScoreOf_high_le (l : ℚ) (h : 100 ≤ l) : latencyScoreOf l ≤ 20 := by
  unfold latencyScoreOf
  rw [if_neg (by push_neg; linarith), if_neg (by push_neg; exact h)]
  have : (200 - l) / 150 * 30 ≤ (20 : ℚ) := by linarith
  exact toU8_le_of_le (n := 20) (by exact_mod_cast this)

lemma latencyScoreOf_anti {a b : ℚ} (h : a ≤ b) :
    latencyScoreOf b ≤ latencyScoreOf a := by
  by_cases hb1 : b < 50
  · have ha1 : a < 50 := lt_of_le_of_lt h hb1
    unfold latencyScoreOf
    rw [if_pos hb1, if_pos ha1]
  · by_cases hb2 : b < 100
    · push_neg at hb1
      by_cases ha1 : a < 50
      · rw [show latencyScoreOf a = 40 by unfold latencyScoreOf; rw [if_pos ha1]]
        exact latencyScoreOf_le b
      · push_neg at ha1
        unfold latencyScoreOf
        rw [if_neg (by push_neg; exact hb1), if_pos hb2,
          if_neg (by push_neg; exact ha1), if_pos (lt_of_le_of_lt h hb2)]
        have : (100 - b) / 50 * 10 ≤ (100 - a) / 50 * 10 := by linarith
        have := toU8_mono this
        omega
    · push_neg at hb2
      by_cases ha2 : a < 100
      · exact le_trans (latencyScoreOf_high_le b hb2)
          (le_trans (by norm_num) (latencyScoreOf_ge a ha2))
      · push_neg at ha2
        unfold latencyScoreOf
        rw [if_neg (by push_neg; linarith), if_neg (by push_neg; exact hb2),
          if_neg (by push_neg; linarith), if_neg (by push_neg; exact ha2)]
        exact toU8_mono (by linarith)

lemma jitterScoreOf_le (j : ℚ) : jitterScoreOf j ≤ 30 := by
  unfold jitterScoreOf
  split
  · exact le_rfl
  · split
    · rename_i h1 h2
      push_neg at h1
      have : (30 - j) / 20 * 10 ≤ (10 : ℚ) := by linarith
      have := toU8_le_of_le (n := 10) (by exact_mod_cast this)
      omega
    · rename_i h1 h2
      push_neg at h1 h2
      have hj : (0 : ℚ) < j := by linarith
      have : 30 / j * 20 ≤ (20 : ℚ) := by
        have h30 : 30 / j ≤ 1 := (div_le_one hj).mpr (by linarith)
        nlinarith
      have := toU8_le_of_le (n := 20) (by exact_mod_cast this)
      omega

lemma jitterScoreOf_ge (j : ℚ) (h : j < 30) : 20 ≤ jitterScoreOf j := by
  unfold jitterScoreOf
  split
  · omega
  · omega

lemma jitterScoreOf_high_le (j : ℚ) (h : 30 ≤ j) : jitterScoreOf j ≤ 20 := by
  unfold jitterScoreOf
  rw [if_neg (by push_neg; linarith), if_neg (by push_neg; exact h)]
  have hj : (0 : ℚ) < j := by linarith
  have hle : 30 / j * 20 ≤ (20 : ℚ) := by
    have h30 : 30 / j ≤ 1 := (div_le_one hj).mpr (by linarith)
    nlinarith
  exact toU8_le_of_le (n := 20) (by exact_mod_cast hle)

lemma jitterScoreOf_anti {a b : ℚ} (h : a ≤ b) :
    jitterScoreOf b ≤ jitterScoreOf a := by
  by_cases hb1 : b < 10
  · have ha1 : a < 10 := lt_of_le_of_lt h hb1
    unfold jitterScoreOf
    rw [if_pos hb1, if_pos ha1]
  · by_cases hb2 : b < 30
    · push_neg at hb1
      by_cases ha1 : a < 10
      · rw [show jitterScoreOf a = 30 by unfold jitterScoreOf; rw [if_pos ha1]]
        exact jitterScoreOf_le b
      · push_neg at ha1
        unfold jitterScoreOf
        rw [if_neg (by push_neg; exact hb1), if_pos hb2,
          if_neg (by push_neg; exact ha1), if_pos (lt_of_le_of_lt h hb2)]
        have : (30 - b) / 20 * 10 ≤ (30 - a) / 20 * 10 := by linarith
        have := toU8_mono this
        omega
    · push_neg at hb2
      by_cases ha2 : a < 30
      · exact le_trans (jitterScoreOf_high_le b hb2) (jitterScoreOf_ge a ha2)
      · push_neg at ha2
        unfold jitterScoreOf
        rw [if_neg (by push_neg; linarith), if_neg (by push_neg; exact hb2),
          if_neg (by push_neg; linarith), if_neg (by push_neg; exact ha2)]
        refine toU8_mono ?_
        exact mul_le_mul_of_nonneg_right
          (div_le_div_of_nonneg_left (by norm_num) (by linarith) h) (by norm_num)

lemma lossScoreOf_le (r : ℚ) : lossScoreOf r ≤ 30 := by
  unfold lossScoreOf
  split
  · exact le_rfl
  · split
    · rename_i h1 h2
      push_neg at h1
      have : (5 - r) / 4 * 10 ≤ (10 : ℚ) := by linarith
      have := toU8_le_of_le (n := 10) (by exact_mod_cast this)
      omega
    · rename_i h1 h2
      push_neg at h1 h2
      have hr : (0 : ℚ) < r := by linarith
      have : 5 / r * 20 ≤ (20 : ℚ) := by
        have h5 : 5 / r ≤ 1 := (div_le_one hr).mpr (by linarith)
        nlinarith
      have := toU8_le_of_le (n := 20) (by exact_mod_cast this)
      omega

lemma lossScoreOf_ge (r : ℚ) (h : r < 5) : 20 ≤ lossScoreOf r := by
  unfold lossScoreOf
  split
  · omega
  · omega

lemma lossScoreOf_high_le (r : ℚ) (h : 5 ≤ r) : lossScoreOf r ≤ 20 := by
  unfold lossScoreOf
  rw [if_neg (by push_neg; linarith), if_neg (by push_neg; exact h)]
  have hr : (0 : ℚ) < r := by linarith
  have hle : 5 / r * 20 ≤ (20 : ℚ) := by
    have h5 : 5 / r ≤ 1 := (div_le_one hr).mpr (by linarith)
    nlinarith
  exact toU8_le_of_le (n := 20) (by exact_mod_cast hle)

lemma lossScoreOf_anti {a b : ℚ} (h : a ≤ b) :
    lossScoreOf b ≤ lossScoreOf a := by
  by_cases hb1 : b < 1
  · have ha1 : a < 1 := lt_of_le_of_lt h hb1
    unfold lossScoreOf
    rw [if_pos hb1, if_pos ha1]
  · by_cases hb2 : b < 5
    · push_neg at hb1
      by_cases ha1 : a < 1
      · rw [show lossScoreOf a = 30 by unfold lossScoreOf; rw [if_pos ha1]]
        exact lossScoreOf_le b
      · push_neg at ha1
        unfold lossScoreOf
        rw [if_neg (by push_neg; exact hb1), if_pos hb2,
          if_neg (by push_neg; exact ha1), if_pos (lt_of_le_of_lt h hb2)]
        have : (5 - b) / 4 * 10 ≤ (5 - a) / 4 * 10 := by linarith
        have := toU8_mono this
        omega
    · push_neg at hb2
      by_cases ha2 : a < 5
      · exact le_trans (lossScoreOf_high_le b hb2) (lossScoreOf_ge a ha2)
      · push_neg at ha2
        unfold lossScoreOf
        rw [if_neg (by push_neg; linarith), if_neg (by push_neg; exact hb2),
          if_neg (by push_neg; linarith), if_neg (by push_neg; exact ha2)]
        refine toU8_mono ?_
        exact mul_le_mul_of_nonneg_right
          (div_le_div_of_nonneg_left (by norm_num) (by linarith) h) (by norm_num)

lemma fpsScoreOf_le (fps : ℚ) : fpsScoreOf fps ≤ 40 := by
  unfold fpsScoreOf
  split
  · exact le_rfl
  · split
    · rename_i h1 h2
      push_neg at h1
      have : (fps - 30) / 30 * 10 ≤ (10 : ℚ) := by linarith
      have := toU8_le_of_le (n := 10) (by exact_mod_cast this)
      omega
    · rename_i h1 h2
      push_neg at h1 h2
      have : fps / 30 * 30 ≤ (30 : ℚ) := by linarith
      have := toU8_le_of_le (n := 30) (by exact_mod_cast this)
      omega

lemma stabilityScoreOf_le (avg : ℚ) : stabilityScoreOf avg ≤ 30 := by
  unfold stabilityScoreOf
  split
  · exact le_rfl
  · split
    · rename_i h1 h2
      push_neg at h1
      have : (33.33 - avg) / 16.66 * 10 ≤ (10 : ℚ) := by
        rw [show (33.33 : ℚ) = 3333/100 by norm_num,
          show (16.66 : ℚ) = 1666/100 by norm_num] at *
        linarith
      have := toU8_le_of_le (n := 10) (by exact_mod_cast this)
      omega
    · rename_i h1 h2
      push_neg at h1 h2
      have hpos : (0 : ℚ) < avg := by
        rw [show (33.33 : ℚ) = 3333/100 by norm_num] at h2
        linarith
      have : 33.33 / avg * 20 ≤ (20 : ℚ) := by
        have hd : 33.33 / avg ≤ 1 := (div_le_one hpos).mpr (by linarith)
        nlinarith
      have := toU8_le_of_le (n := 20) (by exact_mod_cast this)
      omega

lemma quality_sum_le (lt : LatencyTracker) :
    latencyScoreOf lt.average_latency + jitterScoreOf lt.average_jitter
      + lossScoreOf lt.packet_loss_rate ≤ 100 := by
  have h1 := latencyScoreOf_le lt.average_latency
  have h2 := jitterScoreOf_le lt.average_jitter
  have h3 := lossScoreOf_le lt.packet_loss_rate
  omega

lemma calculate_score_eq_of_no_underflow (m : PerformanceMonitor)
    (h : min (m.frame_tracker.detect_frame_drops 33.33).length 10 * 3
          ≤ fpsScoreOf m.frame_tracker.current_fps
            + stabilityScoreOf m.frame_tracker.average_frame_time) :
    m.calculate_score
      = min (fpsScoreOf m.frame_tracker.current_fps
              + stabilityScoreOf m.frame_tracker.average_frame_time
              - min (m.frame_tracker.detect_frame_drops 33.33).length 10 * 3)
          100 := by
  have h1 := fpsScoreOf_le m.frame_tracker.current_fps
  have h2 := stabilityScoreOf_le m.frame_tracker.average_frame_time
  unfold PerformanceMonitor.calculate_score
  dsimp only
  omega

/- ===================== bounded-buffer lemmas ===================== -/

lemma pushBounded_length_le {α : Type} {cap : ℕ} {buf : List α} (x : α)
    (h : buf.length ≤ cap) : (pushBounded cap buf x).length ≤ cap := by
  unfold pushBounded
  dsimp only
  split
  · rw [List.length_tail, List.length_append]
    simp
    omega
  · rename_i hlen
    push_neg at hlen
    exact hlen

lemma pushBounded_length {α : Type} {cap : ℕ} {buf : List α} (x : α)
    (h : buf.length < cap) :
    (pushBounded cap buf x).length = buf.length + 1 := by
  unfold pushBounded
  dsimp only
  rw [if_neg (by rw [List.length_append]; simp; omega)]
  rw [List.length_append]
  simp

lemma lastN_length {α : Type} (cap : ℕ) (l : List α) :
    (lastN cap l).length = min cap l.length := by
  unfold lastN
  rw [List.length_drop]
  omega

lemma pushBounded_lastN {α : Type} (cap : ℕ) (all : List α) (x : α) :
    pushBounded cap (lastN cap all) x = lastN cap (all ++ [x]) := by
  unfold pushBounded lastN
  dsimp only
  rw [List.length_append, List.length_drop, List.length_append]
  by_cases hc : cap ≤ all.length
  · rw [if_pos (by simp; omega)]
    rcases Nat.eq_zero_or_pos cap with hc0 | hc1
    · subst hc0
      rw [show all.length - 0 = all.length by omega, List.drop_length]
      rw [show all.length + [x].length - 0 = (all ++ [x]).length by simp]
      rw [List.drop_length]
      rfl
    · rw [show all.length + [x].length - cap = (all.length + 1 - cap) by simp,
        List.drop_append_of_le_length (by omega)]
      rw [← List.drop_one, List.drop_append_of_le_length
        (by rw [List.length_drop]; omega)]
      rw [List.drop_drop]
      congr 2
      omega
  · rw [if_neg (by simp; omega)]
    rw [show all.length - cap = 0 by omega,
      show all.length + [x].length - cap = 0 by simp; omega]
    simp

lemma record_frame_frame_times (t : FrameTimeTracker) (now : ℚ) :
    ((t.record_frame now).2).frame_times
      = pushBounded t.max_samples t.frame_times (now - t.last_frame_time) := by
  unfold FrameTimeTracker.record_frame
  dsimp only
  split <;> rfl

lemma record_frame_max_samples (t : FrameTimeTracker) (now : ℚ) :
    ((t.record_frame now).2).max_samples = t.max_samples := by
  unfold FrameTimeTracker.record_frame
  dsimp only
  split <;> rfl

lemma record_frame_last (t : FrameTimeTracker) (now : ℚ) :
    ((t.record_frame now).2).last_frame_time = now := by
  unfold FrameTimeTracker.record_frame
  dsimp only
  split <;> rfl

lemma record_frames_lastN :
    ∀ (nows : List ℚ) (t : FrameTimeTracker) (all : List ℚ),
      t.frame_times = lastN t.max_samples all →
      (t.record_frames nows).frame_times
        = lastN t.max_samples (all ++ frameTimesOf t.last_frame_time nows) := by
  intro nows
  induction nows with
  | nil =>
    intro t all h
    simpa [FrameTimeTracker.record_frames, frameTimesOf] using h
  | cons n rest ih =>
    intro t all h
    show (((t.record_frame n).2).record_frames rest).frame_times = _
    have h1 : ((t.record_frame n).2).frame_times
        = lastN ((t.record_frame n).2).max_samples
            (all ++ [n - t.last_frame_time]) := by
      rw [record_frame_frame_times, record_frame_max_samples, h, pushBounded_lastN]
    have h2 := ih ((t.record_frame n).2) (all ++ [n - t.last_frame_time]) h1
    rw [record_frame_max_samples, record_frame_last] at h2
    rw [h2, frameTimesOf, List.append_assoc, List.singleton_append]

lemma record_ping_ping (lt : LatencyTracker) (x : ℚ) :
    (lt.record_ping x).ping_history
      = pushBounded lt.max_history lt.ping_history x := by
  unfold LatencyTracker.record_ping
  dsimp only
  split <;> rfl

lemma record_ping_max (lt : LatencyTracker) (x : ℚ) :
    (lt.record_ping x).max_history = lt.max_history := by
  unfold LatencyTracker.record_ping
  dsimp only
  split <;> rfl

lemma record_ping_jitter_le (lt : LatencyTracker) (x : ℚ)
    (h : lt.jitter_history.length ≤ lt.max_history) :
    (lt.record_ping x).jitter_history.length ≤ lt.max_history := by
  unfold LatencyTracker.record_ping
  dsimp only
  split
  · exact pushBounded_length_le _ h
  · exact h

lemma record_pings_invariant :
    ∀ (ps : List ℚ) (lt : LatencyTracker) (allp : List ℚ),
      lt.ping_history = lastN lt.max_history allp →
      lt.jitter_history.length ≤ lt.max_history →
      (lt.record_pings ps).ping_history = lastN lt.max_history (allp ++ ps) ∧
        (lt.record_pings ps).jitter_history.length ≤ lt.max_history := by
  intro ps
  induction ps with
  | nil =>
    intro lt allp hp hj
    constructor
    · simpa [LatencyTracker.record_pings] using hp
    · simpa [LatencyTracker.record_pings] using hj
  | cons p rest ih =>
    intro lt allp hp hj
    have h1 : (lt.record_ping p).ping_history
        = lastN (lt.record_ping p).max_history (allp ++ [p]) := by
      rw [record_ping_ping, record_ping_max, hp, pushBounded_lastN]
    have h2 : (lt.record_ping p).jitter_history.length
        ≤ (lt.record_ping p).max_history := by
      rw [record_ping_max]
      exact record_ping_jitter_le lt p hj
    have h3 := ih (lt.record_ping p) (allp ++ [p]) h1 h2
    rw [record_ping_max] at h3
    show (((lt.record_ping p)).record_pings rest).ping_history = _ ∧ _
    rw [List.append_assoc, List.singleton_append] at h3
    exact h3

lemma record_ping_jitter_append (lt : LatencyTracker) (x : ℚ)
    (h : 2 ≤ (pushBounded lt.max_history lt.ping_history x).length) :
    (lt.record_ping x).jitter_history
      = pushBounded lt.max_history lt.jitter_history
          |(pushBounded lt.max_history lt.ping_history x).getD
              ((pushBounded lt.max_history lt.ping_history x).length - 1) 0
            - (pushBounded lt.max_history lt.ping_history x).getD
              ((pushBounded lt.max_history lt.ping_history x).length - 2) 0| := by
  unfold LatencyTracker.record_ping
  dsimp only
  rw [if_pos h]

lemma record_ping_jitter_keep (lt : LatencyTracker) (x : ℚ)
    (h : ¬ 2 ≤ (pushBounded lt.max_history lt.ping_history x).length) :
    (lt.record_ping x).jitter_history = lt.jitter_history := by
  unfold LatencyTracker.record_ping
  dsimp only
  rw [if_neg h]

lemma getD_append_pair : ∀ (d : List ℚ) (q p : ℚ),
    (d ++ [q, p]).getD ((d ++ [q, p]).length - 1) 0 = p
    ∧ (d ++ [q, p]).getD ((d ++ [q, p]).length - 2) 0 = q := by
  intro d
  induction d with
  | nil =>
    intro q p
    constructor <;> rfl
  | cons a t ih =>
    intro q p
    have hL : (t ++ [q, p]).length = t.length + 2 := by simp
    constructor
    · rw [List.cons_append, List.length_cons,
        show (t ++ [q, p]).length + 1 - 1 = ((t ++ [q, p]).length - 1) + 1 by
          omega,
        List.getD_cons_succ]
      exact (ih q p).1
    · rw [List.cons_append, List.length_cons,
        show (t ++ [q, p]).length + 1 - 2 = ((t ++ [q, p]).length - 2) + 1 by
          omega,
        List.getD_cons_succ]
      exact (ih q p).2

lemma absDiffsOf_append_last : ∀ (m : List ℚ) (q p : ℚ),
    absDiffsOf (m ++ [q, p]) = absDiffsOf (m ++ [q]) ++ [|p - q|] := by
  intro m
  induction m with
  | nil =>
    intro q p
    simp [absDiffsOf]
  | cons a t ih =>
    intro q p
    cases t with
    | nil => simp [absDiffsOf]
    | cons b t2 =>
      have ih2 := ih q p
      simp only [List.cons_append] at ih2 ⊢
      rw [absDiffsOf, absDiffsOf, ih2]
      simp

lemma lastN_append_pair (k : ℕ) (hk : 2 ≤ k) (m : List ℚ) (q p : ℚ) :
    lastN k (m ++ [q, p])
      = m.drop ((m ++ [q, p]).length - k) ++ [q, p] := by
  unfold lastN
  exact List.drop_append_of_le_length (by simp; omega)

lemma record_pings_jitter_content (k : ℕ) (hk : 2 ≤ k) :
    ∀ (ps : List ℚ) (lt : LatencyTracker) (allp : List ℚ),
      lt.max_history = k →
      lt.ping_history = lastN k allp →
      lt.jitter_history = lastN k (absDiffsOf allp) →
      (lt.record_pings ps).jitter_history
        = lastN k (absDiffsOf (allp ++ ps)) := by
  intro ps
  induction ps with
  | nil =>
    intro lt allp hmax hping hjit
    simpa [LatencyTracker.record_pings] using hjit
  | cons p rest ih =>
    intro lt allp hmax hping hjit
    show (((lt.record_ping p)).record_pings rest).jitter_history = _
    have hping1 : (lt.record_ping p).ping_history = lastN k (allp ++ [p]) := by
      rw [record_ping_ping, hmax, hping, pushBounded_lastN]
    have hmax1 : (lt.record_ping p).max_history = k := by
      rw [record_ping_max]
      exact hmax
    have hjit1 : (lt.record_ping p).jitter_history
        = lastN k (absDiffsOf (allp ++ [p])) := by
      rcases List.eq_nil_or_concat allp with hnil | ⟨m, q, hmq⟩
      · subst hnil
        have hpnil : lt.ping_history = [] := by
          rw [hping]
          simp [lastN]
        have hpush : pushBounded lt.max_history lt.ping_history p = [p] := by
          rw [hmax, hpnil, pushBounded]
          rw [if_neg (by simp; omega)]
          rfl
        rw [record_ping_jitter_keep lt p (by rw [hpush]; simp)]
        rw [hjit]
        simp [absDiffsOf, lastN]
      · rw [List.concat_eq_append] at hmq
        subst hmq
        have hpush : pushBounded lt.max_history lt.ping_history p
            = m.drop ((m ++ [q, p]).length - k) ++ [q, p] := by
          rw [hmax, hping, pushBounded_lastN, List.append_assoc,
            List.singleton_append]
          exact lastN_append_pair k hk m q p
        have h2le : 2 ≤ (pushBounded lt.max_history lt.ping_history p).length := by
          rw [hpush]
          simp
        rw [record_ping_jitter_append lt p h2le]
        rw [hpush]
        rw [(getD_append_pair (m.drop ((m ++ [q, p]).length - k)) q p).1,
          (getD_append_pair (m.drop ((m ++ [q, p]).length - k)) q p).2]
        rw [hmax, hjit, pushBounded_lastN]
        rw [← absDiffsOf_append_last m q p]
        rw [List.append_assoc, List.singleton_append]
    have hrest := ih (lt.record_ping p) (allp ++ [p]) hmax1 hping1 hjit1
    rw [List.append_assoc, List.singleton_append] at hrest
    exact hrest

lemma record_pings_jitter_empty (k : ℕ) (hk : k ≤ 1) :
    ∀ (ps : List ℚ) (lt : LatencyTracker),
      lt.max_history = k →
      lt.ping_history.length ≤ k →
      lt.jitter_history = [] →
      (lt.record_pings ps).jitter_history = [] := by
  intro ps
  induction ps with
  | nil =>
    intro lt hmax hlen hjit
    simpa [LatencyTracker.record_pings] using hjit
  | cons p rest ih =>
    intro lt hmax hlen hjit
    show (((lt.record_ping p)).record_pings rest).jitter_history = []
    have hlen0 : lt.ping_history.length ≤ lt.max_history := by
      rw [hmax]
      exact hlen
    have hlen1 : (pushBounded lt.max_history lt.ping_history p).length ≤ k := by
      rw [← hmax]
      exact pushBounded_length_le p hlen0
    refine ih (lt.record_ping p) ?_ ?_ ?_
    · rw [record_ping_max]
      exact hmax
    · rw [record_ping_ping]
      exact hlen1
    · rw [record_ping_jitter_keep lt p (by omega)]
      exact hjit

/- ===================== percentile lemmas ===================== -/

lemma roundIdx_natCast (k : ℕ) : roundIdx (k : ℚ) = k := by
  unfold roundIdx
  rw [if_neg (by push_neg; positivity)]
  rw [Int.floor_nat_add k (1/2 : ℚ), show Int.floor ((1:ℚ)/2) = 0 by norm_num]
  omega

lemma sorted_le_getLast :
    ∀ (l : List ℚ), l.Sorted (fun x y => x ≤ y) → ∀ (h : l ≠ []),
      ∀ x ∈ l, x ≤ l.getLast h := by
  intro l
  induction l with
  | nil => intro _ h; exact absurd rfl h
  | cons a t ih =>
    intro hs h x hx
    rcases List.sorted_cons.mp hs with ⟨ha, ht⟩
    cases t with
    | nil =>
      have hxa : x = a := by simpa using hx
      subst hxa
      simp
    | cons b t2 =>
      rw [List.getLast_cons (by simp)]
      rcases List.mem_cons.mp hx with hx | hx
      · subst hx
        exact le_trans (ha _ (List.getLast_mem (by simp)))
          (le_refl _)
      · exact ih ht (by simp) x hx

lemma percentileOf_hundred (buf : List ℚ) (h : buf ≠ []) :
    percentileOf buf 100 ∈ buf ∧ ∀ x ∈ buf, x ≤ percentileOf buf 100 := by
  unfold percentileOf
  rw [if_neg h]
  dsimp only
  have hperm := List.perm_insertionSort (fun a b => a ≤ b) buf
  have hsorted := List.sorted_insertionSort (fun a b => a ≤ b) buf
  have hlen : (List.insertionSort (fun a b => a ≤ b) buf).length = buf.length :=
    hperm.length_eq
  have hbuf1 : 1 ≤ buf.length := by
    cases buf with
    | nil => exact absurd rfl h
    | cons y ys => simp
  have hne : List.insertionSort (fun a b => a ≤ b) buf ≠ [] := by
    intro hnil
    rw [hnil] at hlen
    simp at hlen
    omega
  have hidx : roundIdx (100 / 100 * ((buf.length : ℚ) - 1))
      = buf.length - 1 := by
    rw [show (100 : ℚ) / 100 * ((buf.length : ℚ) - 1)
        = ((buf.length - 1 : ℕ) : ℚ) by
      rw [Nat.cast_sub hbuf1]; push_cast; ring]
    exact roundIdx_natCast _
  rw [hidx]
  rw [show (List.insertionSort (fun a b => a ≤ b) buf).getD (buf.length - 1) 0
      = (List.insertionSort (fun a b => a ≤ b) buf).getLast hne by
    rw [List.getLast_eq_getElem _ hne, List.getD_eq_getElem _ 0 (by omega)]
    congr 1
    omega]
  constructor
  · exact hperm.mem_iff.mp (List.getLast_mem hne)
  · intro x hx
    exact sorted_le_getLast _ hsorted hne x (hperm.mem_iff.mpr hx)

lemma percentileOf_zero (buf : List ℚ) (h : buf ≠ []) :
    percentileOf buf 0 ∈ buf ∧ ∀ x ∈ buf, percentileOf buf 0 ≤ x := by
  unfold percentileOf
  rw [if_neg h]
  dsimp only
  have hperm := List.perm_insertionSort (fun a b => a ≤ b) buf
  have hsorted := List.sorted_insertionSort (fun a b => a ≤ b) buf
  have hidx : roundIdx (0 / 100 * ((buf.length : ℚ) - 1)) = 0 := by
    rw [show (0 : ℚ) / 100 * ((buf.length : ℚ) - 1) = ((0 : ℕ) : ℚ) by push_cast; ring]
    exact roundIdx_natCast 0
  rw [hidx]
  rcases hl : List.insertionSort (fun a b => a ≤ b) buf with _ | ⟨a, t⟩
  · have := hperm.length_eq
    rw [hl] at this
    simp at this
    exact absurd this.symm (by simpa using h)
  · rw [hl] at hperm hsorted
    rcases List.sorted_cons.mp hsorted with ⟨ha, _⟩
    constructor
    · exact hperm.mem_iff.mp (by simp)
    · intro x hx
      rcases List.mem_cons.mp (hperm.mem_iff.mpr hx) with hx2 | hx2
      · rw [List.getD_cons_zero, hx2]
      · rw [List.getD_cons_zero]
        exact ha x hx2

/- ===================== fold min/max lemmas ===================== -/

lemma foldl_min_mem : ∀ (l : List ℚ) (a : ℚ), l.foldl min a ∈ a :: l := by
  intro l
  induction l with
  | nil => intro a; simp
  | cons y t ih =>
    intro a
    have h := ih (min a y)
    rw [List.foldl_cons]
    rcases List.mem_cons.mp h with h1 | h1
    · rcases min_choice a y with h2 | h2
      · rw [h1, h2]; simp
      · rw [h1, h2]; simp
    · simp [List.mem_cons.mpr (Or.inr (List.mem_cons.mpr (Or.inr h1)))]

lemma foldl_min_le : ∀ (l : List ℚ) (a : ℚ), ∀ x ∈ a :: l, l.foldl min a ≤ x := by
  intro l
  induction l with
  | nil =>
    intro a x hx
    have hxa : x = a := by simpa using hx
    rw [hxa]
    simp
  | cons y t ih =>
    intro a x hx
    rw [List.foldl_cons]
    rcases List.mem_cons.mp hx with h1 | h1
    · rw [h1]
      exact le_trans (ih (min a y) (min a y) (by simp)) (min_le_left a y)
    · rcases List.mem_cons.mp h1 with h2 | h2
      · rw [h2]
        exact le_trans (ih (min a y) (min a y) (by simp)) (min_le_right a y)
      · exact ih (min a y) x (List.mem_cons.mpr (Or.inr h2))

lemma foldl_max_mem : ∀ (l : List ℚ) (a : ℚ), l.foldl max a ∈ a :: l := by
  intro l
  induction l with
  | nil => intro a; simp
  | cons y t ih =>
    intro a
    have h := ih (max a y)
    rw [List.foldl_cons]
    rcases List.mem_cons.mp h with h1 | h1
    · rcases max_choice a y with h2 | h2
      · rw [h1, h2]; simp
      · rw [h1, h2]; simp
    · simp [List.mem_cons.mpr (Or.inr (List.mem_cons.mpr (Or.inr h1)))]

lemma foldl_max_ge : ∀ (l : List ℚ) (a : ℚ), ∀ x ∈ a :: l, x ≤ l.foldl max a := by
  intro l
  induction l with
  | nil =>
    intro a x hx
    have hxa : x = a := by simpa using hx
    rw [hxa]
    simp
  | cons y t ih =>
    intro a x hx
    rw [List.foldl_cons]
    rcases List.mem_cons.mp hx with h1 | h1
    · rw [h1]
      exact le_trans (le_max_left a y) (ih (max a y) (max a y) (by simp))
    · rcases List.mem_cons.mp h1 with h2 | h2
      · rw [h2]
        exact le_trans (le_max_right a y) (ih (max a y) (max a y) (by simp))
      · exact ih (max a y) x (List.mem_cons.mpr (Or.inr h2))

/- ===================== sampling lemmas ===================== -/

lemma sample_max_history (m : PerformanceMonitor) (now : ℚ) (wall : ℕ)
    (cpu mem : Option ℚ) :
    ((m.sample now wall cpu mem).2).max_history = m.max_history := by
  unfold PerformanceMonitor.sample
  split <;> rfl

lemma sample_history_le (m : PerformanceMonitor) (now : ℚ) (wall : ℕ)
    (cpu mem : Option ℚ) (h : m.history.length ≤ m.max_history) :
    ((m.sample now wall cpu mem).2).history.length ≤ m.max_history := by
  unfold PerformanceMonitor.sample
  split
  · exact h
  · exact pushBounded_length_le _ h

lemma run_samples_history_le :
    ∀ (inputs : List SampleInput) (m : PerformanceMonitor),
      m.history.length ≤ m.max_history →
      (m.run_samples inputs).history.length ≤ m.max_history := by
  intro inputs
  induction inputs with
  | nil =>
    intro m h
    simpa [PerformanceMonitor.run_samples] using h
  | cons i rest ih =>
    intro m h
    show (((m.sample i.now i.wall i.cpu i.mem).2).run_samples rest).history.length ≤ _
    have h1 := sample_history_le m i.now i.wall i.cpu i.mem h
    have h2 := ih ((m.sample i.now i.wall i.cpu i.mem).2)
      (by rw [sample_max_history]; exact h1)
    rw [sample_max_history] at h2
    exact h2

/- ===================== concrete states ===================== -/

/-- A monitor state reached from a fresh monitor after one 400 ms frame
(construction at time 0, record_frame at time 400): the FPS cache is
still 0, the single buffered frame time is 400 ms. -/
def stalledMonitor : PerformanceMonitor :=
  { metrics := PerformanceMetrics.default
    frame_tracker := ((FrameTimeTracker.new 300 0).record_frame 400).2
    sampling_rate := 100
    last_sample := 0
    history := []
    max_history := 5 }

/-- A monitor state with a steady 60 fps cadence: two 10 ms frames
buffered and a cached FPS of 60. -/
def steadyMonitor : PerformanceMonitor :=
  { metrics := PerformanceMetrics.default
    frame_tracker :=
      { frame_times := [10, 10]
        max_samples := 300
        last_frame_time := 20
        frame_count := 0
        fps_update_interval := 500
        last_fps_update := 20
        current_fps := 60 }
    sampling_rate := 100
    last_sample := 0
    history := []
    max_history := 5 }

/- ===================== claim theorems ===================== -/

/-- C1 (amended): for every tracker state, LatencyTracker::quality_score
and PerformanceMonitor::calculate_score return values in [0,100] (the
return type is unsigned, so only the upper bound is substantive), and for
quality_score even the pre-clamp sum of the three sub-scores never
exceeds 100, so no u8 overflow can occur there. The original claim's
further assertion that calculate_score never underflows or wraps before
the final clamp is false: see the counterexample theorem, where the u8
subtraction wraps. -/
theorem quality_and_performance_scores_bounded :
    (∀ lt : LatencyTracker,
        lt.quality_score ≤ 100 ∧
          latencyScoreOf lt.average_latency + jitterScoreOf lt.average_jitter
            + lossScoreOf lt.packet_loss_rate ≤ 100) ∧
    (∀ m : PerformanceMonitor, m.calculate_score ≤ 100) := by
  constructor
  · intro lt
    exact ⟨min_le_right _ _, quality_sum_le lt⟩
  · intro m
    exact min_le_right _ _

lemma stalledMonitor_frame_times :
    stalledMonitor.frame_tracker.frame_times = [400] := by
  norm_num [stalledMonitor, FrameTimeTracker.new, FrameTimeTracker.record_frame,
    pushBounded]

lemma stalledMonitor_fps_score :
    fpsScoreOf stalledMonitor.frame_tracker.current_fps = 0 := by
  rw [show stalledMonitor.frame_tracker.current_fps = 0 by
    norm_num [stalledMonitor, FrameTimeTracker.new, FrameTimeTracker.record_frame]]
  norm_num [fpsScoreOf, toU8]

lemma stalledMonitor_stability_score :
    stabilityScoreOf stalledMonitor.frame_tracker.average_frame_time = 1 := by
  rw [show stalledMonitor.frame_tracker.average_frame_time = 400 by
    rw [FrameTimeTracker.average_frame_time, stalledMonitor_frame_times]
    norm_num]
  rw [stabilityScoreOf, if_neg (by norm_num), if_neg (by norm_num)]
  rw [toU8, if_neg (by norm_num)]
  rw [show Int.floor ((33.33 : ℚ) / 400 * 20) = 1 by norm_num]
  decide

lemma stalledMonitor_drop_count :
    (stalledMonitor.frame_tracker.detect_frame_drops 33.33).length = 1 := by
  rw [FrameTimeTracker.detect_frame_drops, stalledMonitor_frame_times]
  norm_num [List.enum, List.enumFrom]

/-- C1 (counterexample): in the reachable state stalledMonitor the fps
and stability sub-scores sum below the drop penalty, so the u8
subtraction in calculate_score underflows and wraps to 254 before the
final clamp, refuting "the computation never underflows or wraps before
the final clamp". -/
theorem calculate_score_wraps_on_stall :
    fpsScoreOf stalledMonitor.frame_tracker.current_fps
        + stabilityScoreOf stalledMonitor.frame_tracker.average_frame_time
      < min (stalledMonitor.frame_tracker.detect_frame_drops 33.33).length 10 * 3
    ∧ (fpsScoreOf stalledMonitor.frame_tracker.current_fps
        + stabilityScoreOf stalledMonitor.frame_tracker.average_frame_time
        + 256
        - min (stalledMonitor.frame_tracker.detect_frame_drops 33.33).length 10
            * 3) % 256 = 254
    ∧ stalledMonitor.calculate_score = 100 := by
  refine ⟨?_, ?_, ?_⟩
  · rw [stalledMonitor_fps_score, stalledMonitor_stability_score,
      stalledMonitor_drop_count]
    omega
  · rw [stalledMonitor_fps_score, stalledMonitor_stability_score,
      stalledMonitor_drop_count]
    omega
  · rw [PerformanceMonitor.calculate_score]
    rw [stalledMonitor_fps_score, stalledMonitor_stability_score,
      stalledMonitor_drop_count]
    omega

/-- C2 (amended): the fps sub-score is at most 40 and saturates at 40
for fps at least 60; the stability sub-score is at most 30; the drop
penalty is 3 per dropped frame (threshold 33.33 ms) capped at 10 drops,
hence at most 30; and whenever the penalty does not exceed the sum of
the two sub-scores (so the u8 subtraction cannot underflow),
calculate_score equals the claimed clamped difference. The original
claim's unconditional equation is false when the penalty exceeds the
sum: the code then wraps and clamps to 100 where the spec formula gives
0 (see the counterexample theorem). -/
theorem calculate_score_formula (m : PerformanceMonitor) :
    fpsScoreOf m.frame_tracker.current_fps ≤ 40
    ∧ (60 ≤ m.frame_tracker.current_fps →
        fpsScoreOf m.frame_tracker.current_fps = 40)
    ∧ stabilityScoreOf m.frame_tracker.average_frame_time ≤ 30
    ∧ min (m.frame_tracker.detect_frame_drops 33.33).length 10 * 3 ≤ 30
    ∧ (min (m.frame_tracker.detect_frame_drops 33.33).length 10 * 3
          ≤ fpsScoreOf m.frame_tracker.current_fps
            + stabilityScoreOf m.frame_tracker.average_frame_time →
        m.calculate_score
          = min (fpsScoreOf m.frame_tracker.current_fps
              + stabilityScoreOf m.frame_tracker.average_frame_time
              - min (m.frame_tracker.detect_frame_drops 33.33).length 10 * 3)
              100) := by
  refine ⟨fpsScoreOf_le _, ?_, stabilityScoreOf_le _, ?_, ?_⟩
  · intro h
    rw [fpsScoreOf, if_pos h]
  · have : min (m.frame_tracker.detect_frame_drops 33.33).length 10 ≤ 10 :=
      min_le_right _ _
    omega
  · intro h
    exact calculate_score_eq_of_no_underflow m h

/-- C2 (witness): the amended formula evaluated on the concrete steady
60 fps monitor state. -/
theorem calculate_score_formula_witness :
    fpsScoreOf steadyMonitor.frame_tracker.current_fps = 40
    ∧ steadyMonitor.calculate_score
        = min (fpsScoreOf steadyMonitor.frame_tracker.current_fps
            + stabilityScoreOf steadyMonitor.frame_tracker.average_frame_time
            - min (steadyMonitor.frame_tracker.detect_frame_drops 33.33).length
                10 * 3) 100 :=
  ⟨(calculate_score_formula steadyMonitor).2.1 (by norm_num [steadyMonitor]),
   (calculate_score_formula steadyMonitor).2.2.2.2 (by
      rw [show (steadyMonitor.frame_tracker.detect_frame_drops 33.33).length = 0
          by norm_num [steadyMonitor, FrameTimeTracker.detect_frame_drops,
            List.enum, List.enumFrom]]
      omega)⟩

/-- C2 (counterexample): on the reachable stalledMonitor state the code
returns 100 while the documented clamp formula gives 0, so the
unconditional equation of the claim fails. -/
theorem calculate_score_ne_spec_clamp :
    stalledMonitor.calculate_score = 100
      ∧ specPerformanceScore stalledMonitor = 0 := by
  constructor
  · rw [PerformanceMonitor.calculate_score]
    rw [stalledMonitor_fps_score, stalledMonitor_stability_score,
      stalledMonitor_drop_count]
    omega
  · rw [specPerformanceScore]
    rw [stalledMonitor_fps_score, stalledMonitor_stability_score,
      stalledMonitor_drop_count]
    omega

/-- C3 (amended): each quality sub-score used by
LatencyTracker::quality_score is monotonically non-increasing in its
metric, and the branch formulas agree at the breakpoints latency 50 ms,
jitter 10 ms and 30 ms, loss 1% and 5% (so the piecewise definitions are
continuous there at the formula level); at latency 100 ms the middle and
upper branch formulas disagree (30 versus 20), so the latency sub-score
is NOT continuous at that breakpoint, contrary to the original claim:
see the counterexample theorem. -/
theorem quality_sub_scores_monotone_and_boundaries :
    (∀ lt : LatencyTracker,
        lt.quality_score
          = min (latencyScoreOf lt.average_latency
              + jitterScoreOf lt.average_jitter
              + lossScoreOf lt.packet_loss_rate) 100)
    ∧ (∀ a b : ℚ, a ≤ b → latencyScoreOf b ≤ latencyScoreOf a)
    ∧ (∀ a b : ℚ, a ≤ b → jitterScoreOf b ≤ jitterScoreOf a)
    ∧ (∀ a b : ℚ, a ≤ b → lossScoreOf b ≤ lossScoreOf a)
    ∧ latencyScoreMidFormula 50 = 40
    ∧ jitterScoreMidFormula 10 = 30
    ∧ jitterScoreMidFormula 30 = jitterScoreHighFormula 30
    ∧ lossScoreMidFormula 1 = 30
    ∧ lossScoreMidFormula 5 = lossScoreHighFormula 5
    ∧ latencyScoreMidFormula 100 ≠ latencyScoreHighFormula 100 := by
  refine ⟨fun lt => rfl, fun a b h => latencyScoreOf_anti h,
    fun a b h => jitterScoreOf_anti h, fun a b h => lossScoreOf_anti h,
    ?_, ?_, ?_, ?_, ?_, ?_⟩
  · norm_num [latencyScoreMidFormula]
  · norm_num [jitterScoreMidFormula]
  · norm_num [jitterScoreMidFormula, jitterScoreHighFormula]
  · norm_num [lossScoreMidFormula]
  · norm_num [lossScoreMidFormula, lossScoreHighFormula]
  · norm_num [latencyScoreMidFormula, latencyScoreHighFormula]

/-- C3 (witness): the monotonicity statements applied at concrete
metric values (latency 60 and 80 ms, jitter 15 and 25 ms, loss 2% and
4%). -/
theorem quality_sub_scores_monotone_witness :
    latencyScoreOf 80 ≤ latencyScoreOf 60
    ∧ jitterScoreOf 25 ≤ jitterScoreOf 15
    ∧ lossScoreOf 4 ≤ lossScoreOf 2 :=
  ⟨quality_sub_scores_monotone_and_boundaries.2.1 60 80 (by norm_num),
   quality_sub_scores_monotone_and_boundaries.2.2.1 15 25 (by norm_num),
   quality_sub_scores_monotone_and_boundaries.2.2.2.1 2 4 (by norm_num)⟩

/-- C3 (counterexample): at the 100 ms latency breakpoint the actual
sub-score drops from 30 (its value just below the breakpoint, e.g. at
99.9 ms) to 20, and the two adjacent branch formulas evaluate to 30 and
20 there: the latency sub-score is not continuous at 100 ms. -/
theorem latency_breakpoint_discontinuity :
    latencyScoreOf (999/10) = 30
    ∧ latencyScoreOf 100 = 20
    ∧ latencyScoreMidFormula 100 = 30
    ∧ latencyScoreHighFormula 100 = 20 := by
  refine ⟨?_, ?_, ?_, ?_⟩
  · rw [latencyScoreOf, if_neg (by norm_num), if_pos (by norm_num)]
    rw [toU8, if_neg (by norm_num)]
    rw [show Int.floor ((100 - (999:ℚ)/10) / 50 * 10) = 0 by norm_num]
    decide
  · rw [latencyScoreOf, if_neg (by norm_num), if_neg (by norm_num)]
    rw [toU8, if_neg (by norm_num)]
    rw [show Int.floor ((200 - (100:ℚ)) / 150 * 30) = 20 by norm_num]
    decide
  · norm_num [latencyScoreMidFormula]
  · norm_num [latencyScoreHighFormula]

/-- C8: packet_loss_rate is 0 when no packet was ever sent (guarded
division), equals loss/sent*100 otherwise, and in particular equals 10
whenever 2 losses were recorded against 20 sent packets. -/
theorem packet_loss_rate_guarded (lt : LatencyTracker) :
    (lt.packets_sent = 0 → lt.packet_loss_rate = 0)
    ∧ (lt.packets_sent ≠ 0 →
        lt.packet_loss_rate
          = (lt.packet_loss : ℚ) / (lt.packets_sent : ℚ) * 100)
    ∧ (lt.packet_loss = 2 → lt.packets_sent = 20 →
        lt.packet_loss_rate = 10) := by
  refine ⟨?_, ?_, ?_⟩
  · intro h
    rw [LatencyTracker.packet_loss_rate, if_pos h]
  · intro h
    rw [LatencyTracker.packet_loss_rate, if_neg h]
  · intro h2 h20
    rw [LatencyTracker.packet_loss_rate, if_neg (by omega), h2, h20]
    norm_num

/-- C8 (witness): the guarded division evaluated on a fresh tracker
(no packets sent) and on a concrete tracker with 2 losses of 20 sent. -/
theorem packet_loss_rate_guarded_witness :
    (LatencyTracker.new 5).packet_loss_rate = 0
    ∧ ({ ping_history := [], jitter_history := [], packet_loss := 2,
         packets_sent := 20, packets_received := 18, max_history := 5 }
          : LatencyTracker).packet_loss_rate = 10
    ∧ ({ ping_history := [], jitter_history := [], packet_loss := 2,
         packets_sent := 20, packets_received := 18, max_history := 5 }
          : LatencyTracker).packet_loss_rate = (2 : ℚ) / 20 * 100 :=
  ⟨(packet_loss_rate_guarded (LatencyTracker.new 5)).1 rfl,
   (packet_loss_rate_guarded _).2.2 rfl rfl,
   by exact_mod_cast (packet_loss_rate_guarded _).2.1 (by decide)⟩

/-- C9: a freshly constructed LatencyTracker has average latency 0,
average jitter 0 and packet-loss rate 0, each falling in the
best-scoring branch, so quality_score is the maximum 100. -/
theorem fresh_latency_tracker_full_quality (k : ℕ) :
    (LatencyTracker.new k).average_latency = 0
    ∧ (LatencyTracker.new k).average_jitter = 0
    ∧ (LatencyTracker.new k).packet_loss_rate = 0
    ∧ (LatencyTracker.new k).quality_score = 100 := by
  have h1 : (LatencyTracker.new k).average_latency = 0 := rfl
  have h2 : (LatencyTracker.new k).average_jitter = 0 := rfl
  have h3 : (LatencyTracker.new k).packet_loss_rate = 0 := rfl
  refine ⟨h1, h2, h3, ?_⟩
  rw [LatencyTracker.quality_score, h1, h2, h3]
  rw [show latencyScoreOf 0 = 40 by rw [latencyScoreOf, if_pos (by norm_num)]]
  rw [show jitterScoreOf 0 = 30 by rw [jitterScoreOf, if_pos (by norm_num)]]
  rw [show lossScoreOf 0 = 30 by rw [lossScoreOf, if_pos (by norm_num)]]
  decide

/-- C4: for every sequence of record_frame calls from a fresh tracker,
the frame-time buffer is exactly the last cap recorded frame times in
recording order (FIFO eviction of the oldest) and its length never
exceeds the capacity; the same bounded-FIFO content invariant holds for
the ping buffer of record_ping, and for the jitter buffer: its length
never exceeds the capacity and it holds exactly the most recent
inserted jitter values — for a capacity of at least 2 these are the
last k successive absolute differences of the recorded latencies, while
for a capacity of at most 1 the post-eviction ping buffer never reaches
two elements, so no jitter value is ever inserted and the buffer stays
empty (the full list of inserted values). -/
theorem bounded_fifo_buffers (cap : ℕ) (now0 : ℚ) (nows : List ℚ) (k : ℕ)
    (ps : List ℚ) :
    ((FrameTimeTracker.new cap now0).record_frames nows).frame_times
        = lastN cap (frameTimesOf now0 nows)
    ∧ ((FrameTimeTracker.new cap now0).record_frames nows).frame_times.length
        ≤ cap
    ∧ ((LatencyTracker.new k).record_pings ps).ping_history = lastN k ps
    ∧ ((LatencyTracker.new k).record_pings ps).ping_history.length ≤ k
    ∧ ((LatencyTracker.new k).record_pings ps).jitter_history.length ≤ k
    ∧ (2 ≤ k →
        ((LatencyTracker.new k).record_pings ps).jitter_history
          = lastN k (absDiffsOf ps))
    ∧ (k ≤ 1 →
        ((LatencyTracker.new k).record_pings ps).jitter_history = []) := by
  have hf := record_frames_lastN nows (FrameTimeTracker.new cap now0) []
    (by simp [FrameTimeTracker.new, lastN])
  rw [show (FrameTimeTracker.new cap now0).max_samples = cap from rfl,
    show (FrameTimeTracker.new cap now0).last_frame_time = now0 from rfl,
    List.nil_append] at hf
  have hp := record_pings_invariant ps (LatencyTracker.new k) []
    (by simp [LatencyTracker.new, lastN]) (by simp [LatencyTracker.new])
  rw [show (LatencyTracker.new k).max_history = k from rfl,
    List.nil_append] at hp
  refine ⟨hf, ?_, hp.1, ?_, hp.2, ?_, ?_⟩
  · rw [hf, lastN_length]
    omega
  · rw [hp.1, lastN_length]
    omega
  · intro hk
    have hj := record_pings_jitter_content k hk ps (LatencyTracker.new k) []
      rfl (by simp [LatencyTracker.new, lastN])
      (by simp [LatencyTracker.new, absDiffsOf, lastN])
    rwa [List.nil_append] at hj
  · intro hk
    exact record_pings_jitter_empty k hk ps (LatencyTracker.new k) rfl
      (by simp [LatencyTracker.new]) rfl

/-- C4 (witness): the jitter-content conjuncts evaluated concretely: at
capacity 2, recording pings 1, 4, 2 leaves the jitter buffer equal to
the last two successive absolute differences; at capacity 1 the jitter
buffer stays empty. -/
theorem bounded_fifo_buffers_witness :
    ((LatencyTracker.new 2).record_pings [1, 4, 2]).jitter_history
        = lastN 2 (absDiffsOf [1, 4, 2])
    ∧ ((LatencyTracker.new 1).record_pings [1, 4, 2]).jitter_history = [] :=
  ⟨(bounded_fifo_buffers 0 0 [] 2 [1, 4, 2]).2.2.2.2.2.1 (by norm_num),
   (bounded_fifo_buffers 0 0 [] 1 [1, 4, 2]).2.2.2.2.2.2 (by norm_num)⟩

/-- C5: sample returns none and leaves the monitor unchanged whenever
less than sampling_rate has elapsed since the previous successful
sample; once the interval has elapsed it returns the snapshot, the
history becomes the bounded push of that snapshot (appending exactly one
entry, evicting the oldest once full), and under any sequence of sample
calls the history length never exceeds max_history. -/
theorem sample_gate_and_history (m : PerformanceMonitor) (now : ℚ) (wall : ℕ)
    (cpu mem : Option ℚ) (inputs : List SampleInput) :
    (now - m.last_sample < m.sampling_rate →
        m.sample now wall cpu mem = (none, m))
    ∧ (m.sampling_rate ≤ now - m.last_sample →
        (m.sample now wall cpu mem).1 = some (m.snapshot wall cpu mem)
        ∧ (m.sample now wall cpu mem).2.history
            = pushBounded m.max_history m.history (m.snapshot wall cpu mem)
        ∧ (m.history.length < m.max_history →
            (m.sample now wall cpu mem).2.history.length
              = m.history.length + 1)
        ∧ (m.history.length ≤ m.max_history →
            (m.sample now wall cpu mem).2.history.length ≤ m.max_history))
    ∧ (m.history.length ≤ m.max_history →
        (m.run_samples inputs).history.length ≤ m.max_history) := by
  refine ⟨?_, ?_, run_samples_history_le inputs m⟩
  · intro h
    rw [PerformanceMonitor.sample, if_pos h]
  · intro h
    have hn : ¬ now - m.last_sample < m.sampling_rate := not_lt.mpr h
    refine ⟨?_, ?_, ?_, ?_⟩
    · rw [PerformanceMonitor.sample, if_neg hn]
    · rw [PerformanceMonitor.sample, if_neg hn]
    · intro hlt
      rw [PerformanceMonitor.sample, if_neg hn]
      exact pushBounded_length _ hlt
    · intro hle
      exact sample_history_le m now wall cpu mem hle

/-- C5 (witness): on the concrete steady monitor (sampling_rate 100,
last_sample 0) a call at time 50 is gated to none, and a call at time
150 returns the snapshot. -/
theorem sample_gate_witness :
    steadyMonitor.sample 50 1 none none = (none, steadyMonitor)
    ∧ (steadyMonitor.sample 150 1 none none).1
        = some (steadyMonitor.snapshot 1 none none)
    ∧ (steadyMonitor.sample 150 1 none none).2.history.length
        = steadyMonitor.history.length + 1
    ∧ (steadyMonitor.run_samples []).history.length
        ≤ steadyMonitor.max_history :=
  ⟨(sample_gate_and_history steadyMonitor 50 1 none none []).1
      (by norm_num [steadyMonitor]),
   ((sample_gate_and_history steadyMonitor 150 1 none none []).2.1
      (by norm_num [steadyMonitor])).1,
   (((sample_gate_and_history steadyMonitor 150 1 none none []).2.1
      (by norm_num [steadyMonitor])).2.2.1) (by decide),
   (sample_gate_and_history steadyMonitor 150 1 none none []).2.2
      (by decide)⟩

/-- C6: percentile_frame_time and percentile_latency run the same
nearest-rank algorithm on their buffers; an empty buffer yields 0, and
on a non-empty buffer percentile 100 is the maximum buffered value and
percentile 0 the minimum (characterised as a member that bounds all
members). -/
theorem percentile_nearest_rank (t : FrameTimeTracker) (lt : LatencyTracker)
    (p : ℚ) :
    (t.frame_times = lt.ping_history →
        t.percentile_frame_time p = lt.percentile_latency p)
    ∧ (t.frame_times = [] → t.percentile_frame_time p = 0)
    ∧ (t.frame_times ≠ [] →
        (t.percentile_frame_time 100 ∈ t.frame_times
          ∧ ∀ x ∈ t.frame_times, x ≤ t.percentile_frame_time 100)
        ∧ (t.percentile_frame_time 0 ∈ t.frame_times
          ∧ ∀ x ∈ t.frame_times, t.percentile_frame_time 0 ≤ x)) := by
  refine ⟨?_, ?_, ?_⟩
  · intro h
    rw [FrameTimeTracker.percentile_frame_time,
      LatencyTracker.percentile_latency, h]
  · intro h
    rw [FrameTimeTracker.percentile_frame_time, percentileOf, if_pos h]
  · intro h
    exact ⟨percentileOf_hundred t.frame_times h, percentileOf_zero t.frame_times h⟩

/-- A concrete tracker with three buffered frame times, used to witness
the percentile characterisation. -/
def sampleTracker : FrameTimeTracker :=
  { frame_times := [3, 1, 2]
    max_samples := 300
    last_frame_time := 0
    frame_count := 0
    fps_update_interval := 500
    last_fps_update := 0
    current_fps := 0 }

/-- A concrete latency tracker holding the same three samples as
sampleTracker, used to witness that the two percentile functions agree. -/
def samplePingTracker : LatencyTracker :=
  { ping_history := [3, 1, 2]
    jitter_history := [2, 1]
    packet_loss := 0
    packets_sent := 3
    packets_received := 3
    max_history := 300 }

/-- C6 (witness): the percentile characterisation applied to the
concrete buffer [3, 1, 2], the empty buffer, and the identical latency
buffer. -/
theorem percentile_nearest_rank_witness :
    (sampleTracker.percentile_frame_time 100 ∈ sampleTracker.frame_times
      ∧ ∀ x ∈ sampleTracker.frame_times,
          x ≤ sampleTracker.percentile_frame_time 100)
    ∧ ((FrameTimeTracker.new 300 0).percentile_frame_time 95 = 0)
    ∧ sampleTracker.percentile_frame_time 95
        = samplePingTracker.percentile_latency 95 :=
  ⟨((percentile_nearest_rank sampleTracker (LatencyTracker.new 0) 0).2.2
      (by decide)).1,
   (percentile_nearest_rank (FrameTimeTracker.new 300 0)
      (LatencyTracker.new 0) 95).2.1 rfl,
   (percentile_nearest_rank sampleTracker samplePingTracker 95).1 rfl⟩

/- snapshot field lemmas for the probe-retention claim -/

lemma snapshot_cpu_none (m : PerformanceMonitor) (wall : ℕ) (mem : Option ℚ) :
    (m.snapshot wall none mem).cpu_usage = m.metrics.cpu_usage := by
  unfold PerformanceMonitor.snapshot
  cases mem <;> rfl

lemma snapshot_mem_none (m : PerformanceMonitor) (wall : ℕ) (cpu : Option ℚ) :
    (m.snapshot wall cpu none).memory_usage = m.metrics.memory_usage := by
  unfold PerformanceMonitor.snapshot
  cases cpu <;> rfl

lemma snapshot_cpu_some (m : PerformanceMonitor) (wall : ℕ) (c : ℚ)
    (mem : Option ℚ) : (m.snapshot wall (some c) mem).cpu_usage = c := by
  unfold PerformanceMonitor.snapshot
  cases mem <;> rfl

lemma snapshot_mem_some (m : PerformanceMonitor) (wall : ℕ) (cpu : Option ℚ)
    (v : ℚ) : (m.snapshot wall cpu (some v)).memory_usage = v := by
  unfold PerformanceMonitor.snapshot
  cases cpu <;> rfl

lemma snapshot_core_fields (m : PerformanceMonitor) (wall : ℕ)
    (cpu mem : Option ℚ) :
    (m.snapshot wall cpu mem).timestamp = wall
    ∧ (m.snapshot wall cpu mem).frame_rate = m.frame_tracker.current_fps
    ∧ (m.snapshot wall cpu mem).frame_time_ms
        = m.frame_tracker.average_frame_time := by
  unfold PerformanceMonitor.snapshot
  cases cpu <;> cases mem <;> exact ⟨rfl, rfl, rfl⟩

lemma sample_metrics (m : PerformanceMonitor) (now : ℚ) (wall : ℕ)
    (cpu mem : Option ℚ) (h : m.sampling_rate ≤ now - m.last_sample) :
    (m.sample now wall cpu mem).2.metrics = m.snapshot wall cpu mem := by
  rw [PerformanceMonitor.sample, if_neg (not_lt.mpr h)]

/-- C7: when the rate gate passes, a missing CPU or memory probe value
leaves the corresponding metrics field at its previous value (never
zeroed, and the operation is total), a present probe value overwrites
it, and the timestamp, frame_rate and frame_time_ms fields are written
independently of the probes. -/
theorem probe_absence_retains_previous (m : PerformanceMonitor) (now : ℚ)
    (wall : ℕ) (cpu mem : Option ℚ)
    (h : m.sampling_rate ≤ now - m.last_sample) :
    (cpu = none →
        (m.sample now wall cpu mem).2.metrics.cpu_usage
          = m.metrics.cpu_usage)
    ∧ (mem = none →
        (m.sample now wall cpu mem).2.metrics.memory_usage
          = m.metrics.memory_usage)
    ∧ (∀ c, cpu = some c →
        (m.sample now wall cpu mem).2.metrics.cpu_usage = c)
    ∧ (∀ v, mem = some v →
        (m.sample now wall cpu mem).2.metrics.memory_usage = v)
    ∧ (m.sample now wall cpu mem).2.metrics.timestamp = wall
    ∧ (m.sample now wall cpu mem).2.metrics.frame_rate
        = m.frame_tracker.current_fps
    ∧ (m.sample now wall cpu mem).2.metrics.frame_time_ms
        = m.frame_tracker.average_frame_time := by
  rw [sample_metrics m now wall cpu mem h]
  refine ⟨?_, ?_, ?_, ?_, (snapshot_core_fields m wall cpu mem).1,
    (snapshot_core_fields m wall cpu mem).2.1,
    (snapshot_core_fields m wall cpu mem).2.2⟩
  · intro hc
    rw [hc, snapshot_cpu_none]
  · intro hv
    rw [hv, snapshot_mem_none]
  · intro c hc
    rw [hc, snapshot_cpu_some]
  · intro v hv
    rw [hv, snapshot_mem_some]

/-- C7 (witness): on the steady monitor at time 200 with both probes
absent, the sampled metrics retain the previous cpu and memory values. -/
theorem probe_absence_witness :
    (steadyMonitor.sample 200 7 none none).2.metrics.cpu_usage
        = steadyMonitor.metrics.cpu_usage
    ∧ (steadyMonitor.sample 200 7 none none).2.metrics.memory_usage
        = steadyMonitor.metrics.memory_usage
    ∧ (steadyMonitor.sample 200 7 (some 45) (some 60)).2.metrics.cpu_usage = 45
    ∧ (steadyMonitor.sample 200 7 (some 45) (some 60)).2.metrics.memory_usage
        = 60
    ∧ (steadyMonitor.sample 200 7 none none).2.metrics.timestamp = 7 :=
  ⟨(probe_absence_retains_previous steadyMonitor 200 7 none none
      (by norm_num [steadyMonitor])).1 rfl,
   (probe_absence_retains_previous steadyMonitor 200 7 none none
      (by norm_num [steadyMonitor])).2.1 rfl,
   (probe_absence_retains_previous steadyMonitor 200 7 (some 45) (some 60)
      (by norm_num [steadyMonitor])).2.2.1 45 rfl,
   (probe_absence_retains_previous steadyMonitor 200 7 (some 45) (some 60)
      (by norm_num [steadyMonitor])).2.2.2.1 60 rfl,
   (probe_absence_retains_previous steadyMonitor 200 7 none none
      (by norm_num [steadyMonitor])).2.2.2.2.1⟩

/-- C10: calculate_profile computes min_frame_time and max_frame_time
only over the history snapshots with strictly positive frame_time_ms
(every element of the filtered list is positive); both are 0 when no
such snapshot exists, and on a non-empty filtered list (whose values
are within the f64 range, as every f64 is) the min is a member that
lower-bounds all members and the max a member that upper-bounds them.
The profile computation is a pure function of the monitor state and
returns only a profile value, so it modifies neither the history nor
any tracker state. -/
theorem profile_minmax_positive_only (m : PerformanceMonitor) (gid : String) :
    (∀ x ∈ positiveFrameTimes m, 0 < x)
    ∧ (positiveFrameTimes m = [] →
        (m.calculate_profile gid).min_frame_time = 0
          ∧ (m.calculate_profile gid).max_frame_time = 0)
    ∧ (positiveFrameTimes m ≠ [] →
        (∀ x ∈ positiveFrameTimes m, x ≤ FMAX) →
        (m.calculate_profile gid).min_frame_time ∈ positiveFrameTimes m
          ∧ ∀ x ∈ positiveFrameTimes m,
              (m.calculate_profile gid).min_frame_time ≤ x)
    ∧ (positiveFrameTimes m ≠ [] →
        (∀ x ∈ positiveFrameTimes m, FMIN ≤ x) →
        (m.calculate_profile gid).max_frame_time ∈ positiveFrameTimes m
          ∧ ∀ x ∈ positiveFrameTimes m,
              x ≤ (m.calculate_profile gid).max_frame_time) := by
  have hmin : (m.calculate_profile gid).min_frame_time
      = if positiveFrameTimes m ≠ [] then
          (positiveFrameTimes m).foldl min FMAX else 0 := rfl
  have hmax : (m.calculate_profile gid).max_frame_time
      = if positiveFrameTimes m ≠ [] then
          (positiveFrameTimes m).foldl max FMIN else 0 := rfl
  refine ⟨?_, ?_, ?_, ?_⟩
  · intro x hx
    have := List.of_mem_filter hx
    exact of_decide_eq_true this
  · intro h
    rw [hmin, hmax, if_neg (by simpa using h), if_neg (by simpa using h)]
    exact ⟨rfl, rfl⟩
  · intro h hb
    rw [hmin, if_pos h]
    constructor
    · rcases List.mem_cons.mp (foldl_min_mem (positiveFrameTimes m) FMAX)
        with h1 | h1
      · rcases List.exists_mem_of_ne_nil _ h with ⟨y, hy⟩
        have hle := foldl_min_le (positiveFrameTimes m) FMAX y
          (List.mem_cons.mpr (Or.inr hy))
        have hFy : FMAX ≤ y := by rw [← h1]; exact hle
        have heq : (positiveFrameTimes m).foldl min FMAX = y := by
          rw [h1]
          exact le_antisymm hFy (hb y hy)
        rw [heq]
        exact hy
      · exact h1
    · intro x hx
      exact foldl_min_le (positiveFrameTimes m) FMAX x
        (List.mem_cons.mpr (Or.inr hx))
  · intro h hb
    rw [hmax, if_pos h]
    constructor
    · rcases List.mem_cons.mp (foldl_max_mem (positiveFrameTimes m) FMIN)
        with h1 | h1
      · rcases List.exists_mem_of_ne_nil _ h with ⟨y, hy⟩
        have hge := foldl_max_ge (positiveFrameTimes m) FMIN y
          (List.mem_cons.mpr (Or.inr hy))
        have hyF : y ≤ FMIN := by rw [← h1]; exact hge
        have heq : (positiveFrameTimes m).foldl max FMIN = y := by
          rw [h1]
          exact (le_antisymm hyF (hb y hy)).symm
        rw [heq]
        exact hy
      · exact h1
    · intro x hx
      exact foldl_max_ge (positiveFrameTimes m) FMIN x
        (List.mem_cons.mpr (Or.inr hx))

/-- A monitor whose history holds one snapshot with frame time 5 ms and
one all-zero snapshot, used to witness the profile min/max claim. -/
def historyMonitor : PerformanceMonitor :=
  { metrics := PerformanceMetrics.default
    frame_tracker := FrameTimeTracker.new 300 0
    sampling_rate := 100
    last_sample := 0
    history := [{ PerformanceMetrics.default with frame_time_ms := 5 },
                PerformanceMetrics.default]
    max_history := 5 }

/-- C10 (witness): on the concrete historyMonitor the zero-frame-time
snapshot is excluded, so the filtered list is [5] and the profile's min
frame time is a member bounding all members; on a fresh monitor with
empty history both extremes are 0. -/
theorem profile_minmax_witness :
    (historyMonitor.calculate_profile "g").min_frame_time
        ∈ positiveFrameTimes historyMonitor
    ∧ (historyMonitor.calculate_profile "g").max_frame_time
        ∈ positiveFrameTimes historyMonitor
    ∧ ((PerformanceMonitor.new 100 5 0).calculate_profile "g").min_frame_time
        = 0 :=
  ⟨((profile_minmax_positive_only historyMonitor "g").2.2.1
      (by norm_num [positiveFrameTimes, historyMonitor,
        PerformanceMetrics.default])
      (by
        intro x hx
        rw [show positiveFrameTimes historyMonitor = [5] by
          norm_num [positiveFrameTimes, historyMonitor,
            PerformanceMetrics.default]] at hx
        rw [show x = 5 by simpa using hx]
        norm_num [FMAX])).1,
   ((profile_minmax_positive_only historyMonitor "g").2.2.2
      (by norm_num [positiveFrameTimes, historyMonitor,
        PerformanceMetrics.default])
      (by
        intro x hx
        rw [show positiveFrameTimes historyMonitor = [5] by
          norm_num [positiveFrameTimes, historyMonitor,
            PerformanceMetrics.default]] at hx
        rw [show x = 5 by simpa using hx]
        norm_num [FMIN])).1,
   ((profile_minmax_positive_only (PerformanceMonitor.new 100 5 0) "g").2.1
      (by norm_num [positiveFrameTimes, PerformanceMonitor.new])).1⟩

end GameCenter
